import Mathlib

/-!
Verification of the wiring-harness domain model and derived-metrics engine
(models/harness_models.py): structural entities, the geometry / length
engine, and the reporting subsystem (BOM, pinout report, fastener BOM).

Python floats are modelled as real numbers, Python `Optional[T]` as
`Option T`, Python dicts (insertion-ordered, string-keyed) as association
lists `List (String × V)`, and raising code as `Except`-valued functions.
Python truthiness of an `Optional[str]` value (`if x:`) is `x` being
present and non-empty, modelled by `truthyStr`.
-/

namespace HarnessEd

/-- Points are (x, y) pairs of reals, as used for `position` and `path_points`. -/
abbrev Point := ℝ × ℝ

/-- Truthiness of a Python `Optional[str]`: `None` and `""` are falsy. -/
def truthyStr : Option String → Bool
  | none => false
  | some s => s != ""

/-- Rendering of a Python `Optional[str]` inside an f-string: `None` prints as "None". -/
def fmtOpt : Option String → String
  | none => "None"
  | some s => s

/-- Update the value at the first occurrence of key `k` in an association list. -/
def updateAt {α : Type} (m : List (String × α)) (k : String) (f : α → α) :
    List (String × α) :=
  match m with
  | [] => []
  | (k', v) :: rest =>
      if k' == k then (k', f v) :: rest else (k', v) :: updateAt rest k f

/-- ConnectorType enum with its display labels (`.value`). -/
inductive ConnectorType
  | JT | GT | MT | DTM | DTP | SQUARE | OTHER

def ConnectorType.value : ConnectorType → String
  | .JT => "Junior Timer"
  | .GT => "General Timer"
  | .MT => "Micro Timer"
  | .DTM => "Deutsch DTM"
  | .DTP => "Deutsch DTP"
  | .SQUARE => "Square Connector"
  | .OTHER => "Other"

/-- SealType enum with its display labels. -/
inductive SealType
  | UNSEALED | CONNECTOR_SEALED | FULLY_SEALED

def SealType.value : SealType → String
  | .UNSEALED => "Unsealed"
  | .CONNECTOR_SEALED => "Connector Sealed"
  | .FULLY_SEALED => "Fully Sealed"

/-- Gender enum with its display labels. -/
inductive Gender
  | MALE | FEMALE

def Gender.value : Gender → String
  | .MALE => "Male"
  | .FEMALE => "Female"

/-- WireType enum with its display labels. -/
inductive WireType
  | FLRY_B_0_35 | FLRY_B_0_5 | FLRY_B_0_75 | FLRY_B_1_0 | FLRY_B_1_5 | FLRY_B_2_5

def WireType.value : WireType → String
  | .FLRY_B_0_35 => "FLRY-B 0.35 mm²"
  | .FLRY_B_0_5 => "FLRY-B 0.5 mm²"
  | .FLRY_B_0_75 => "FLRY-B 0.75 mm²"
  | .FLRY_B_1_0 => "FLRY-B 1.0 mm²"
  | .FLRY_B_1_5 => "FLRY-B 1.5 mm²"
  | .FLRY_B_2_5 => "FLRY-B 2.5 mm²"

/-- ProtectionType enum with its display labels. -/
inductive ProtectionType
  | BRAIDED_SLEEVE | SHRINK_TUBING | SPIRAL_WRAP | FLEX_CONDUIT | TAPE | FABRIC_TAPE

def ProtectionType.value : ProtectionType → String
  | .BRAIDED_SLEEVE => "Braided Sleeve (PET)"
  | .SHRINK_TUBING => "Heat Shrink Tubing"
  | .SPIRAL_WRAP => "Spiral Wrap"
  | .FLEX_CONDUIT => "Flexible Conduit"
  | .TAPE => "Friction Tape"
  | .FABRIC_TAPE => "Fabric Tape"

/-- NodeType enum with its display labels. -/
inductive NodeType
  | CONNECTOR | SPLICE | GROUND | TERMINAL | BREAKOUT

def NodeType.value : NodeType → String
  | .CONNECTOR => "CONNECTOR"
  | .SPLICE => "SPLICE"
  | .GROUND => "GROUND"
  | .TERMINAL => "TERMINAL"
  | .BREAKOUT => "BREAKOUT"

/-- FastenerCategory enum. -/
inductive FastenerCategory
  | CLIP | BRACKET | BOLT | NUT | WASHER | TIE | GROMMET | OTHER

/-- FastenerMaterial enum. -/
inductive FastenerMaterial
  | NYLON | STEEL | STAINLESS_STEEL | ALUMINUM | PLASTIC | RUBBER

/-- FastenerType dataclass. -/
structure FastenerType where
  id : String
  name : String
  description : Option String
  category : FastenerCategory
  material : FastenerMaterial
  default_size : Option String

/-- Fastener dataclass. -/
structure Fastener where
  id : String
  harness_id : String
  type : FastenerType
  part_number : String
  quantity : Int
  position : Point
  orientation : ℝ
  size : Option String
  torque_nm : Option ℝ
  notes : Option String
  branch_id : Option String
  distance_from_start_mm : Option ℝ
  node_id : Option String

/-- Pin dataclass: a single cavity/pin within a connector. -/
structure Pin where
  number : String
  gender : Gender
  «seal» : SealType
  wire_id : Option String

/-- Connector dataclass: the connector housing, with insertion-ordered pins. -/
structure Connector where
  id : String
  name : String
  type : ConnectorType
  gender : Gender
  «seal» : SealType
  part_number : Option String
  pins : List (String × Pin)
  position : Point

/-- BranchProtection dataclass. Its only diameter field is named `diameter`
(in mm); the source defines no `diameter_mm` attribute on this class. -/
structure BranchProtection where
  id : String
  type : ProtectionType
  part_number : Option String
  diameter : Option ℝ

/-- Node dataclass: a point in the harness where connections happen. -/
structure Node where
  id : String
  harness_id : String
  name : String
  type : NodeType
  connector_id : Option String
  position : Point

/-- Wire dataclass: a single wire run between two nodes. -/
structure Wire where
  id : String
  harness_id : String
  type : WireType
  color : String
  from_node_id : String
  to_node_id : String
  from_pin : Option String
  to_pin : Option String
  calculated_length_mm : Option ℝ

/-- HarnessBranch dataclass: path points plus member node ids. -/
structure HarnessBranch where
  id : String
  harness_id : String
  name : String
  protection_id : Option String
  path_points : List Point
  nodes : List String

/-- Euclidean distance as computed in the source:
sqrt ((q.x - p.x)² + (q.y - p.y)²). -/
noncomputable def distPt (p q : Point) : ℝ :=
  Real.sqrt ((q.1 - p.1) * (q.1 - p.1) + (q.2 - p.2) * (q.2 - p.2))

/-- Accumulation loop of `HarnessBranch.calculate_length`: starting from a
previous point, add the distance to each successive point in order. -/
noncomputable def segSum : Point → List Point → ℝ
  | _, [] => 0
  | prev, c :: rest => distPt prev c + segSum c rest

/-- Polyline length of a point list: 0 for the empty list, otherwise the
segment sum starting at the head. -/
noncomputable def polyLen : List Point → ℝ
  | [] => 0
  | p :: rest => segSum p rest

/-- HarnessBranch.calculate_length: returns 0.0 for fewer than 2 path points,
otherwise sums the distances between consecutive path points. -/
noncomputable def HarnessBranch.calculate_length (b : HarnessBranch) : ℝ :=
  if b.path_points.length < 2 then 0 else polyLen b.path_points

/-- Prefix-length loop of `find_distance_to_node`: sum of
distance(points[i], points[i+1]) for i in range(k). Out-of-range indices
(which the source never produces) read as (0, 0). -/
noncomputable def prefixSegLen (pts : List Point) : ℕ → ℝ
  | 0 => 0
  | Nat.succ k =>
      prefixSegLen pts k + distPt (pts.getD k (0, 0)) (pts.getD (k + 1) (0, 0))

/-- Nearest-point scan of `find_distance_to_node`: `best = none` models the
initial `min_distance = inf`; a point replaces the current best exactly when
its distance is strictly smaller, so ties keep the earliest index. Returns
(closest_point_index, min_distance). -/
noncomputable def closestScan (t : Point) :
    List Point → ℕ → Option ℝ → ℕ → ℕ × Option ℝ
  | [], _, best, bidx => (bidx, best)
  | p :: rest, i, best, bidx =>
      let d := distPt t p
      match best with
      | none => closestScan t rest (i + 1) (some d) i
      | some m =>
          if d < m then closestScan t rest (i + 1) (some d) i
          else closestScan t rest (i + 1) (some m) bidx

/-- HarnessBranch.find_distance_to_node: None when the node id does not
resolve in `nodes_dict`; otherwise scans for the path point closest to the
node's position and returns the path length from the start up to it
(0.0 when the closest index is 0, which includes the empty-path case). -/
noncomputable def HarnessBranch.find_distance_to_node (b : HarnessBranch)
    (node_id : String) (nodes_dict : List (String × Node)) : Option ℝ :=
  match nodes_dict.lookup node_id with
  | none => none
  | some node =>
      let scan := closestScan node.position b.path_points 0 none 0
      if scan.1 = 0 then some 0
      else some (prefixSegLen b.path_points scan.1)

/-- HarnessBranch.calculate_wire_length: None unless both wire endpoints are
members of the branch's node list, otherwise the full branch length. The
`nodes_dict` argument is accepted (as in the source) but unused. -/
noncomputable def HarnessBranch.calculate_wire_length (b : HarnessBranch)
    (w : Wire) (_nodes_dict : List (String × Node)) : Option ℝ :=
  if w.from_node_id ∉ b.nodes ∨ w.to_node_id ∉ b.nodes then none
  else some b.calculate_length

/-- WiringHarness dataclass: the aggregate root owning all entity mappings. -/
structure WiringHarness where
  name : String
  part_number : String
  connectors : List (String × Connector)
  wires : List (String × Wire)
  branches : List (String × HarnessBranch)
  protections : List (String × BranchProtection)
  nodes : List (String × Node)
  fasteners : List (String × Fastener)
  fastener_types : List (String × FastenerType)

/-- WiringHarness.get_connector_pins: the connector's pins, or an empty
mapping for an unknown connector id. -/
def WiringHarness.get_connector_pins (h : WiringHarness)
    (connector_id : String) : List (String × Pin) :=
  match h.connectors.lookup connector_id with
  | some c => c.pins
  | none => []

/-- Per-branch accumulation of `calculate_branch_wire_lengths`: starting from
0.0, add `calculate_wire_length` for every branch where it is not None. -/
noncomputable def sumApplicable (branches : List (String × HarnessBranch))
    (nd : List (String × Node)) (w : Wire) : ℝ :=
  branches.foldl
    (fun acc bp =>
      match bp.2.calculate_wire_length w nd with
      | some L => acc + L
      | none => acc)
    0

/-- Final per-wire value of `calculate_branch_wire_lengths`: the branch sum
with the 10% service-loop allowance applied (total_length *= 1.1). -/
noncomputable def wireTotal (branches : List (String × HarnessBranch))
    (nd : List (String × Node)) (w : Wire) : ℝ :=
  1.1 * sumApplicable branches nd w

/-- Loop of `calculate_branch_wire_lengths` over the wires mapping: for each
wire compute the total, write it into the wire's `calculated_length_mm`, and
record it in the returned mapping. -/
noncomputable def cbwlGo (branches : List (String × HarnessBranch))
    (nd : List (String × Node)) :
    List (String × Wire) → List (String × ℝ) × List (String × Wire)
  | [] => ([], [])
  | (wid, w) :: rest =>
      let t := wireTotal branches nd w
      let r := cbwlGo branches nd rest
      ((wid, t) :: r.1, (wid, { w with calculated_length_mm := some t }) :: r.2)

/-- WiringHarness.calculate_branch_wire_lengths: returns the wire_lengths
mapping and the harness with every wire's cache overwritten. -/
noncomputable def WiringHarness.calculate_branch_wire_lengths
    (h : WiringHarness) : List (String × ℝ) × WiringHarness :=
  let r := cbwlGo h.branches h.nodes h.wires
  (r.1, { h with wires := r.2 })

/-- WiringHarness._get_connection_point: describes the far end of a wire seen
from `current_connector_id`, or "Unknown" when neither resolved end matches. -/
def WiringHarness.get_connection_point (h : WiringHarness) (w : Wire)
    (current_connector_id : String) : String :=
  let from_node := h.nodes.lookup w.from_node_id
  let to_node := h.nodes.lookup w.to_node_id
  if (match from_node with
      | some n => n.connector_id == some current_connector_id
      | none => false) then
    match to_node with
    | some t =>
        if truthyStr t.connector_id then
          "Connector " ++ fmtOpt t.connector_id ++ ", Pin " ++ fmtOpt w.to_pin
        else t.type.value ++ " " ++ t.name
    | none => "Unknown"
  else if (match to_node with
      | some n => n.connector_id == some current_connector_id
      | none => false) then
    match from_node with
    | some f =>
        if truthyStr f.connector_id then
          "Connector " ++ fmtOpt f.connector_id ++ ", Pin " ++ fmtOpt w.from_pin
        else f.type.value ++ " " ++ f.name
    | none => "Unknown"
  else "Unknown"

/-- Record appended by `generate_pinout_report` for one pin. -/
structure PinoutRecord where
  pin_number : String
  gender : String
  «seal» : String
  wire_id : Option String
  wire_type : String
  wire_color : String
  connected_to : String

/-- Body of the pin loop in `generate_pinout_report`: looks up the connected
wire when `pin.wire_id` is truthy and fills "N/A" placeholders otherwise. -/
def pinRecord (h : WiringHarness) (connector_id : String) (pin_number : String)
    (pin : Pin) : PinoutRecord :=
  let connected_wire : Option Wire :=
    if truthyStr pin.wire_id then
      match pin.wire_id with
      | some wid => h.wires.lookup wid
      | none => none
    else none
  { pin_number := pin_number
    gender := pin.gender.value
    «seal» := pin.seal.value
    wire_id := pin.wire_id
    wire_type :=
      match connected_wire with
      | some w => w.type.value
      | none => "N/A"
    wire_color :=
      match connected_wire with
      | some w => w.color
      | none => "N/A"
    connected_to :=
      match connected_wire with
      | some w => h.get_connection_point w connector_id
      | none => "N/A" }

/-- WiringHarness.generate_pinout_report: an empty report for an unknown
connector id, otherwise one record appended per pin in insertion order. -/
def WiringHarness.generate_pinout_report (h : WiringHarness)
    (connector_id : String) : List PinoutRecord :=
  let report : List PinoutRecord := []
  match h.connectors.lookup connector_id with
  | none => report
  | some c =>
      c.pins.foldl (fun acc pp => acc ++ [pinRecord h connector_id pp.1 pp.2]) report

/-- Python runtime error raised by attribute access on a missing attribute. -/
inductive PyError
  | attributeError

/-- Connector entry of the BOM. -/
structure BomConnectorEntry where
  type : String
  part_number : Option String
  quantity : ℕ

/-- Wire-type entry of the BOM, keyed by "{type}_{color}". -/
structure BomWireEntry where
  type : String
  color : String
  length_mm : ℝ
  count : ℕ

/-- Protection entry of the BOM. -/
structure BomProtectionEntry where
  type : String
  part_number : Option String
  diameter_mm : Option ℝ
  quantity : ℝ

/-- Result shape of `generate_bom`. -/
structure Bom where
  connectors : List (String × BomConnectorEntry)
  wires : List (String × BomWireEntry)
  protections : List (String × BomProtectionEntry)
  total_wire_length : ℝ

/-- Dict assignment `m[k] = v`: overwrite in place if the key exists,
otherwise append at the end (Python dict semantics). -/
def dictAssign {α : Type} (m : List (String × α)) (k : String) (v : α) :
    List (String × α) :=
  if (m.lookup k).isSome then updateAt m k (fun _ => v) else m ++ [(k, v)]

/-- WiringHarness.generate_bom. The wires section reads
`wire.calculated_length_mm or 0`, i.e. an absent value counts as 0. The
protections loop evaluates `protection.diameter_mm`, but `BranchProtection`
defines the field `diameter`, not `diameter_mm`, so in Python the first
iteration raises AttributeError; this is modelled as `Except.error` whenever
the protections mapping is non-empty. When it is empty the loop body never
runs and the subsequent branches loop finds no protection keys. -/
noncomputable def WiringHarness.generate_bom (h : WiringHarness) :
    Except PyError Bom :=
  let conns : List (String × BomConnectorEntry) :=
    h.connectors.foldl
      (fun acc cp =>
        dictAssign acc cp.2.id
          { type := cp.2.type.value, part_number := cp.2.part_number, quantity := 1 })
      []
  let wt : List (String × BomWireEntry) × ℝ :=
    h.wires.foldl
      (fun acc wp =>
        let w := wp.2
        let key := w.type.value ++ "_" ++ w.color
        let m :=
          if (acc.1.lookup key).isSome then acc.1
          else acc.1 ++ [(key, { type := w.type.value, color := w.color,
                                 length_mm := 0, count := 0 })]
        let m2 := updateAt m key (fun e =>
          { e with length_mm := e.length_mm + w.calculated_length_mm.getD 0,
                   count := e.count + 1 })
        (m2, acc.2 + w.calculated_length_mm.getD 0))
      ([], 0)
  match h.protections with
  | _ :: _ => Except.error PyError.attributeError
  | [] =>
      let prots : List (String × BomProtectionEntry) := []
      let prots2 :=
        h.branches.foldl
          (fun acc bp =>
            if truthyStr bp.2.protection_id
                && (acc.lookup (fmtOpt bp.2.protection_id)).isSome then
              updateAt acc (fmtOpt bp.2.protection_id)
                (fun e => { e with quantity := e.quantity + bp.2.calculate_length })
            else acc)
          prots
      Except.ok { connectors := conns, wires := wt.1, protections := prots2,
                  total_wire_length := wt.2 }

/-- Aggregate entry of the fastener BOM, keyed by "{part_number}_{size-or-empty}". -/
structure FastenerBomEntry where
  part_number : String
  type : String
  size : Option String
  quantity : Int
  torque : Option ℝ
  locations : List String

/-- Key of a fastener in the fastener BOM: f"{part_number}_{size or ''}"
(a `None` or empty size contributes the empty string). -/
def fkey (f : Fastener) : String :=
  f.part_number ++ "_" ++ f.size.getD ""

/-- Fresh zero entry inserted by `generate_fastener_bom` when a key is first
seen: quantity 0, no locations, type name and torque from this fastener. -/
def freshEntry (f : Fastener) : FastenerBomEntry :=
  { part_number := f.part_number, type := f.type.name, size := f.size,
    quantity := 0, torque := f.torque_nm, locations := [] }

/-- Mutation applied to the keyed entry by `generate_fastener_bom`: add the
fastener's quantity, then append at most one location string — "Branch {id}"
when branch_id is truthy, otherwise "Node {id}" when node_id is truthy,
otherwise nothing. -/
def fbomUpd (f : Fastener) (e : FastenerBomEntry) : FastenerBomEntry :=
  let e1 := { e with quantity := e.quantity + f.quantity }
  if truthyStr f.branch_id then
    { e1 with locations := e1.locations ++ ["Branch " ++ f.branch_id.getD ""] }
  else if truthyStr f.node_id then
    { e1 with locations := e1.locations ++ ["Node " ++ f.node_id.getD ""] }
  else e1

/-- Body of the fastener loop in `generate_fastener_bom`: insert a fresh
entry if the key is new, then apply `fbomUpd` to the keyed entry. -/
def fbomStep (bom : List (String × FastenerBomEntry)) (f : Fastener) :
    List (String × FastenerBomEntry) :=
  let key := fkey f
  let bom1 :=
    if (bom.lookup key).isSome then bom else bom ++ [(key, freshEntry f)]
  updateAt bom1 key (fbomUpd f)

/-- WiringHarness.generate_fastener_bom: fold of `fbomStep` over the
fasteners in insertion order. -/
def WiringHarness.generate_fastener_bom (h : WiringHarness) :
    List (String × FastenerBomEntry) :=
  h.fasteners.foldl (fun bom fp => fbomStep bom fp.2) []

/-- Failure kinds of the aggregate's add-operations, from the spec's error
model (DuplicateIdError, DanglingReferenceError, DuplicateEndpointError). -/
inductive HarnessError
  | duplicateId
  | danglingReference
  | duplicateEndpoint

/-- Modelled from the spec: `WiringHarness.add_wire` is described by the spec
(harness aggregate add-operations) but no such method exists in the source,
whose only `add_wire` occurrences are editor GUI commands. Checks are
modelled in the order the spec lists them: DuplicateIdError on wire-id
collision, DanglingReferenceError when `from_node_id` or `to_node_id` does
not resolve, DuplicateEndpointError when the endpoint tuple
(from_node, from_pin, to_node, to_pin) is already present; on success the
wire is inserted. Pin-cavity resolution, which the spec also requires, is
not modelled here because no claim depends on it. -/
def WiringHarness.add_wire (h : WiringHarness) (w : Wire) :
    Except HarnessError WiringHarness :=
  if (h.wires.lookup w.id).isSome then
    Except.error HarnessError.duplicateId
  else if (h.nodes.lookup w.from_node_id).isNone then
    Except.error HarnessError.danglingReference
  else if (h.nodes.lookup w.to_node_id).isNone then
    Except.error HarnessError.danglingReference
  else if h.wires.any (fun p =>
      p.2.from_node_id == w.from_node_id && p.2.from_pin == w.from_pin
        && p.2.to_node_id == w.to_node_id && p.2.to_pin == w.to_pin) then
    Except.error HarnessError.duplicateEndpoint
  else
    Except.ok { h with wires := h.wires ++ [(w.id, w)] }

/-- State of the aggregate after an `add_wire` call: the new harness on
success, the untouched harness on failure (atomicity). -/
def WiringHarness.add_wire_result (h : WiringHarness) (w : Wire) :
    WiringHarness :=
  match h.add_wire w with
  | Except.ok h2 => h2
  | Except.error _ => h

lemma distPt_nonneg (p q : Point) : 0 ≤ distPt p q :=
  Real.sqrt_nonneg _

lemma distPt_comm (p q : Point) : distPt p q = distPt q p := by
  unfold distPt
  congr 1
  ring

lemma segSum_nonneg : ∀ (p : Point) (l : List Point), 0 ≤ segSum p l
  | _, [] => le_refl 0
  | p, c :: rest => by
      have h1 := distPt_nonneg p c
      have h2 := segSum_nonneg c rest
      simpa [segSum] using add_nonneg h1 h2

lemma polyLen_nonneg (l : List Point) : 0 ≤ polyLen l := by
  cases l with
  | nil => simp [polyLen]
  | cons p rest => simpa [polyLen] using segSum_nonneg p rest

lemma segSum_append2 : ∀ (l : List Point) (p a b : Point),
    segSum p (l ++ [a, b]) = segSum p (l ++ [a]) + distPt a b
  | [], p, a, b => by simp [segSum]
  | x :: l, p, a, b => by
      have ih := segSum_append2 l x a b
      simp [segSum, ih, add_assoc]

lemma polyLen_append2 (l : List Point) (a b : Point) :
    polyLen (l ++ [a, b]) = polyLen (l ++ [a]) + distPt a b := by
  cases l with
  | nil => simp [polyLen, segSum]
  | cons p rest => simpa [polyLen] using segSum_append2 rest p a b

theorem polyLen_reverse : ∀ (l : List Point), polyLen l.reverse = polyLen l
  | [] => rfl
  | [_] => rfl
  | a :: b :: l => by
      have ih := polyLen_reverse (b :: l)
      have h2 : (b :: l).reverse = l.reverse ++ [b] := List.reverse_cons b l
      calc polyLen (a :: b :: l).reverse
          = polyLen (l.reverse ++ [b, a]) := by
            rw [List.reverse_cons, h2, List.append_assoc]
            rfl
        _ = polyLen (l.reverse ++ [b]) + distPt b a := polyLen_append2 l.reverse b a
        _ = polyLen (b :: l).reverse + distPt b a := by rw [h2]
        _ = polyLen (b :: l) + distPt b a := by rw [ih]
        _ = distPt a b + polyLen (b :: l) := by rw [distPt_comm b a]; ring
        _ = polyLen (a :: b :: l) := by simp [polyLen, segSum]

/-- Branch used as a concrete instance: no path points, no nodes. -/
def bEmptyPath : HarnessBranch :=
  { id := "b0", harness_id := "h0", name := "empty", protection_id := none,
    path_points := [], nodes := [] }

/-- C7: for every branch, `calculate_length` over its path points is
non-negative and is unchanged by reversing the point sequence, and a
sequence of fewer than 2 points has length 0. -/
theorem C7_polyline (b : HarnessBranch) :
    0 ≤ b.calculate_length ∧
    HarnessBranch.calculate_length { b with path_points := b.path_points.reverse }
      = b.calculate_length ∧
    (b.path_points.length < 2 → b.calculate_length = 0) := by
  refine ⟨?_, ?_, ?_⟩
  · unfold HarnessBranch.calculate_length
    split
    · exact le_refl 0
    · exact polyLen_nonneg _
  · show (if (b.path_points.reverse).length < 2 then (0:ℝ)
        else polyLen b.path_points.reverse) = b.calculate_length
    unfold HarnessBranch.calculate_length
    rw [List.length_reverse]
    split
    · rfl
    · exact polyLen_reverse _
  · intro h
    unfold HarnessBranch.calculate_length
    simp [h]

/-- C7 witness: the empty-path branch has fewer than 2 points and length 0. -/
theorem C7_witness :
    bEmptyPath.path_points.length < 2 ∧ bEmptyPath.calculate_length = 0 :=
  ⟨by decide, (C7_polyline bEmptyPath).2.2 (by decide)⟩

/-- Index `k` is the path point nearest to `t`, with ties broken by the
earliest index: no point is strictly closer, and every earlier index is
strictly farther. -/
def IsNearest (pts : List Point) (t : Point) (k : ℕ) : Prop :=
  k < pts.length ∧
  (∀ j, j < pts.length →
    distPt t (pts.getD k (0, 0)) ≤ distPt t (pts.getD j (0, 0))) ∧
  (∀ j, j < k → distPt t (pts.getD k (0, 0)) < distPt t (pts.getD j (0, 0)))

lemma closestScan_spec (t : Point) :
    ∀ (pts : List Point) (m : ℝ) (i bidx : ℕ),
      (closestScan t pts i (some m) bidx = (bidx, some m) ∧
        ∀ j, j < pts.length → m ≤ distPt t (pts.getD j (0, 0)))
      ∨ (∃ j, j < pts.length ∧
          closestScan t pts i (some m) bidx
            = (i + j, some (distPt t (pts.getD j (0, 0)))) ∧
          distPt t (pts.getD j (0, 0)) < m ∧
          (∀ j', j' < pts.length →
            distPt t (pts.getD j (0, 0)) ≤ distPt t (pts.getD j' (0, 0))) ∧
          (∀ j', j' < j →
            distPt t (pts.getD j (0, 0)) < distPt t (pts.getD j' (0, 0)))) := by
  intro pts
  induction pts with
  | nil =>
      intro m i bidx
      left
      exact ⟨rfl, fun j hj => absurd hj (Nat.not_lt_zero _)⟩
  | cons p rest ih =>
      intro m i bidx
      by_cases hd : distPt t p < m
      · have hstep : closestScan t (p :: rest) i (some m) bidx
            = closestScan t rest (i + 1) (some (distPt t p)) i := by
          simp [closestScan, hd]
        rcases ih (distPt t p) (i + 1) i with
          ⟨heq, hall⟩ | ⟨j, hj, heq, hlt, hmin, hstrict⟩
        · right
          refine ⟨0, by simp, ?_, by simpa using hd, ?_, ?_⟩
          · rw [hstep, heq]; simp
          · intro j' hj'
            cases j' with
            | zero => simp
            | succ j'' =>
                simp only [List.getD_cons_succ, List.getD_cons_zero]
                exact hall j'' (by simpa using hj')
          · intro j' hj'
            exact absurd hj' (Nat.not_lt_zero _)
        · right
          refine ⟨j + 1, by simp only [List.length_cons]; omega, ?_, ?_, ?_, ?_⟩
          · have hidx : (i + 1) + j = i + (j + 1) := by omega
            rw [hstep, heq, hidx]
            simp only [List.getD_cons_succ]
          · simp only [List.getD_cons_succ]
            exact lt_trans hlt hd
          · intro j' hj'
            cases j' with
            | zero =>
                simp only [List.getD_cons_succ, List.getD_cons_zero]
                exact le_of_lt hlt
            | succ j'' =>
                simp only [List.getD_cons_succ]
                exact hmin j'' (by simpa using hj')
          · intro j' hj'
            cases j' with
            | zero =>
                simp only [List.getD_cons_succ, List.getD_cons_zero]
                exact hlt
            | succ j'' =>
                simp only [List.getD_cons_succ]
                exact hstrict j'' (by omega)
      · have hm : m ≤ distPt t p := not_lt.mp hd
        have hstep : closestScan t (p :: rest) i (some m) bidx
            = closestScan t rest (i + 1) (some m) bidx := by
          simp [closestScan, hd]
        rcases ih m (i + 1) bidx with
          ⟨heq, hall⟩ | ⟨j, hj, heq, hlt, hmin, hstrict⟩
        · left
          refine ⟨by rw [hstep]; exact heq, ?_⟩
          intro j hj'
          cases j with
          | zero => simpa using hm
          | succ j'' =>
              simp only [List.getD_cons_succ]
              exact hall j'' (by simpa using hj')
        · right
          refine ⟨j + 1, by simp only [List.length_cons]; omega, ?_, ?_, ?_, ?_⟩
          · have hidx : (i + 1) + j = i + (j + 1) := by omega
            rw [hstep, heq, hidx]
            simp only [List.getD_cons_succ]
          · simp only [List.getD_cons_succ]
            exact hlt
          · intro j' hj'
            cases j' with
            | zero =>
                simp only [List.getD_cons_succ, List.getD_cons_zero]
                exact le_of_lt (lt_of_lt_of_le hlt hm)
            | succ j'' =>
                simp only [List.getD_cons_succ]
                exact hmin j'' (by simpa using hj')
          · intro j' hj'
            cases j' with
            | zero =>
                simp only [List.getD_cons_succ, List.getD_cons_zero]
                exact lt_of_lt_of_le hlt hm
            | succ j'' =>
                simp only [List.getD_cons_succ]
                exact hstrict j'' (by omega)

lemma closestScan_isNearest (t : Point) (p : Point) (rest : List Point) :
    IsNearest (p :: rest) t (closestScan t (p :: rest) 0 none 0).1 := by
  have hstep : closestScan t (p :: rest) 0 none 0
      = closestScan t rest 1 (some (distPt t p)) 0 := by
    simp [closestScan]
  rcases closestScan_spec t rest (distPt t p) 1 0 with
    ⟨heq, hall⟩ | ⟨j, hj, heq, hlt, hmin, hstrict⟩
  · rw [hstep, heq]
    refine ⟨by simp, ?_, ?_⟩
    · intro j hj'
      cases j with
      | zero => simp
      | succ j'' =>
          simp only [List.getD_cons_succ, List.getD_cons_zero]
          exact hall j'' (by simpa using hj')
    · intro j hj'
      exact absurd hj' (Nat.not_lt_zero _)
  · rw [hstep, heq]
    have h1j : 1 + j = j + 1 := by omega
    simp only [h1j]
    refine ⟨by simp only [List.length_cons]; omega, ?_, ?_⟩
    · intro j' hj'
      cases j' with
      | zero =>
          simp only [List.getD_cons_succ, List.getD_cons_zero]
          exact le_of_lt hlt
      | succ j'' =>
          simp only [List.getD_cons_succ]
          exact hmin j'' (by simpa using hj')
    · intro j' hj'
      cases j' with
      | zero =>
          simp only [List.getD_cons_succ, List.getD_cons_zero]
          exact hlt
      | succ j'' =>
          simp only [List.getD_cons_succ]
          exact hstrict j'' (by omega)

/-- C1 (amended): `find_distance_to_node` is None exactly on an unresolved
node id; for a resolved node it always returns a value — 0.0 on a branch
with no path points, and otherwise the prefix length up to the nearest path
point, with ties broken by the earliest index. -/
theorem C1_find_distance_amended (b : HarnessBranch) (nid : String)
    (d : List (String × Node)) :
    (d.lookup nid = none → b.find_distance_to_node nid d = none) ∧
    (∀ node, d.lookup nid = some node → b.path_points = [] →
      b.find_distance_to_node nid d = some 0) ∧
    (∀ node, d.lookup nid = some node → b.path_points ≠ [] →
      ∃ k, IsNearest b.path_points node.position k ∧
        b.find_distance_to_node nid d = some (prefixSegLen b.path_points k)) := by
  refine ⟨?_, ?_, ?_⟩
  · intro h
    unfold HarnessBranch.find_distance_to_node
    rw [h]
  · intro node h hpts
    unfold HarnessBranch.find_distance_to_node
    rw [h, hpts]
    simp [closestScan]
  · intro node h hpts
    obtain ⟨p, rest, hcons⟩ : ∃ p rest, b.path_points = p :: rest := by
      cases hx : b.path_points with
      | nil => exact absurd hx hpts
      | cons q qs => exact ⟨q, qs, rfl⟩
    have hnear := closestScan_isNearest node.position p rest
    refine ⟨(closestScan node.position (p :: rest) 0 none 0).1, ?_, ?_⟩
    · rw [hcons]
      exact hnear
    · unfold HarnessBranch.find_distance_to_node
      rw [h, hcons]
      by_cases hk : (closestScan node.position (p :: rest) 0 none 0).1 = 0
      · simp only [hk, if_pos rfl]
        simp [prefixSegLen]
      · simp only [if_neg hk]

/-- Node used as a concrete instance. -/
def nEx : Node :=
  { id := "n1", harness_id := "h0", name := "N1", type := NodeType.SPLICE,
    connector_id := none, position := (0, 0) }

/-- Singleton node mapping used as a concrete instance. -/
def nodesEx1 : List (String × Node) := [("n1", nEx)]

/-- C1 counterexample: on a branch with no path points and a node id that
does resolve, `find_distance_to_node` returns 0.0, not the "not found"
outcome None. -/
theorem C1_counterexample :
    bEmptyPath.path_points = [] ∧
    bEmptyPath.find_distance_to_node "n1" nodesEx1 ≠ none := by
  refine ⟨rfl, ?_⟩
  have hval : bEmptyPath.find_distance_to_node "n1" nodesEx1 = some 0 := rfl
  rw [hval]
  exact Option.some_ne_none 0

/-- C1 witness: an unresolved node id yields None. -/
theorem C1_witness :
    List.lookup "zz" nodesEx1 = none ∧
    bEmptyPath.find_distance_to_node "zz" nodesEx1 = none :=
  ⟨rfl, (C1_find_distance_amended bEmptyPath "zz" nodesEx1).1 rfl⟩

/-- C5: `calculate_wire_length` returns the branch's full length exactly when
both wire endpoints are members of the branch's node list, and None
otherwise; the result never depends on positions along the path. -/
theorem C5_calculate_wire_length (b : HarnessBranch) (w : Wire)
    (nd : List (String × Node)) :
    (w.from_node_id ∈ b.nodes ∧ w.to_node_id ∈ b.nodes →
      b.calculate_wire_length w nd = some b.calculate_length) ∧
    (¬(w.from_node_id ∈ b.nodes ∧ w.to_node_id ∈ b.nodes) →
      b.calculate_wire_length w nd = none) := by
  constructor
  · rintro ⟨h1, h2⟩
    unfold HarnessBranch.calculate_wire_length
    rw [if_neg]
    push_neg
    exact ⟨h1, h2⟩
  · intro h
    unfold HarnessBranch.calculate_wire_length
    rw [if_pos (not_and_or.mp h)]

/-- Second node of the concrete two-node fixture. -/
def n2Ex : Node :=
  { id := "n2", harness_id := "h0", name := "N2", type := NodeType.SPLICE,
    connector_id := none, position := (100, 0) }

/-- Two-node mapping of the concrete fixture. -/
def nodesEx2 : List (String × Node) := [("n1", nEx), ("n2", n2Ex)]

/-- Branch of raw length 100.0 mm between nodes n1 and n2. -/
def bEx : HarnessBranch :=
  { id := "b1", harness_id := "h0", name := "main", protection_id := none,
    path_points := [(0, 0), (100, 0)], nodes := ["n1", "n2"] }

/-- Wire running from n1 to n2, with no cached length. -/
def wEx : Wire :=
  { id := "w1", harness_id := "h0", type := WireType.FLRY_B_0_5, color := "RD",
    from_node_id := "n1", to_node_id := "n2", from_pin := none, to_pin := none,
    calculated_length_mm := none }

/-- Harness with one wire applicable to exactly one branch of raw length
100.0 mm. -/
def hEx100 : WiringHarness :=
  { name := "H", part_number := "PN", connectors := [],
    wires := [("w1", wEx)], branches := [("b1", bEx)], protections := [],
    nodes := nodesEx2, fasteners := [], fastener_types := [] }

/-- C5 witness: both endpoints of wEx lie on bEx, so the full branch length
is returned. -/
theorem C5_witness :
    (wEx.from_node_id ∈ bEx.nodes ∧ wEx.to_node_id ∈ bEx.nodes) ∧
    bEx.calculate_wire_length wEx nodesEx2 = some bEx.calculate_length :=
  ⟨by decide, (C5_calculate_wire_length bEx wEx nodesEx2).1 (by decide)⟩

lemma cbwlGo_fst (br : List (String × HarnessBranch))
    (nd : List (String × Node)) :
    ∀ ws : List (String × Wire),
      (cbwlGo br nd ws).1 = ws.map (fun wp => (wp.1, wireTotal br nd wp.2))
  | [] => rfl
  | (wid, w) :: rest => by
      simp [cbwlGo, cbwlGo_fst br nd rest]

lemma cbwlGo_snd (br : List (String × HarnessBranch))
    (nd : List (String × Node)) :
    ∀ ws : List (String × Wire),
      (cbwlGo br nd ws).2 = ws.map (fun wp =>
        (wp.1, { wp.2 with calculated_length_mm := some (wireTotal br nd wp.2) }))
  | [] => rfl
  | (wid, w) :: rest => by
      simp [cbwlGo, cbwlGo_snd br nd rest]

lemma wireTotal_setCache (br : List (String × HarnessBranch))
    (nd : List (String × Node)) (w : Wire) (t : Option ℝ) :
    wireTotal br nd { w with calculated_length_mm := t } = wireTotal br nd w :=
  rfl

lemma distPt_horizontal_100 :
    distPt ((0 : ℝ), (0 : ℝ)) ((100 : ℝ), (0 : ℝ)) = 100 := by
  unfold distPt
  have h1 : (((100 : ℝ), (0 : ℝ)).1 - ((0 : ℝ), (0 : ℝ)).1)
        * (((100 : ℝ), (0 : ℝ)).1 - ((0 : ℝ), (0 : ℝ)).1)
      + (((100 : ℝ), (0 : ℝ)).2 - ((0 : ℝ), (0 : ℝ)).2)
        * (((100 : ℝ), (0 : ℝ)).2 - ((0 : ℝ), (0 : ℝ)).2) = 100 * 100 := by
    norm_num
  rw [h1]
  exact Real.sqrt_mul_self (by norm_num)

lemma bEx_length : bEx.calculate_length = 100 := by
  unfold HarnessBranch.calculate_length
  rw [if_neg (by simp [bEx])]
  show distPt ((0 : ℝ), (0 : ℝ)) ((100 : ℝ), (0 : ℝ)) + 0 = 100
  rw [distPt_horizontal_100]
  norm_num

lemma wEx_total : wireTotal [("b1", bEx)] nodesEx2 wEx = 110 := by
  have hcw : bEx.calculate_wire_length wEx nodesEx2 = some bEx.calculate_length := by
    unfold HarnessBranch.calculate_wire_length
    rw [if_neg]
    push_neg
    constructor <;> simp [bEx, wEx]
  unfold wireTotal sumApplicable
  simp [hcw, bEx_length]
  norm_num

/-- C4: `calculate_branch_wire_lengths` returns an entry for every wire in
order, the value is 1.1 times the sum of `calculate_wire_length` over the
branches where it is applicable, the same value is written into the wire's
`calculated_length_mm` cache, and on the concrete one-branch fixture a raw
length of 100.0 mm yields 110.0 mm. -/
theorem C4_wire_lengths :
    (∀ h : WiringHarness,
      (h.calculate_branch_wire_lengths).1
        = h.wires.map (fun wp =>
            (wp.1, 1.1 * sumApplicable h.branches h.nodes wp.2)) ∧
      ((h.calculate_branch_wire_lengths).2).wires
        = h.wires.map (fun wp =>
            (wp.1,
              { wp.2 with
                calculated_length_mm := some (1.1 * sumApplicable h.branches h.nodes wp.2) }))) ∧
    ((hEx100.calculate_branch_wire_lengths).1.lookup "w1" = some 110 ∧
      (((hEx100.calculate_branch_wire_lengths).2).wires.lookup "w1").map
          Wire.calculated_length_mm = some (some 110)) := by
  refine ⟨fun h => ⟨?_, ?_⟩, ?_, ?_⟩
  · exact cbwlGo_fst h.branches h.nodes h.wires
  · exact cbwlGo_snd h.branches h.nodes h.wires
  · have hm : (hEx100.calculate_branch_wire_lengths).1
        = [("w1", wireTotal [("b1", bEx)] nodesEx2 wEx)] := by
      simp [WiringHarness.calculate_branch_wire_lengths, cbwlGo, hEx100]
    rw [hm, wEx_total]
    rfl
  · have hm : ((hEx100.calculate_branch_wire_lengths).2).wires
        = [("w1",
            { wEx with
              calculated_length_mm := some (wireTotal [("b1", bEx)] nodesEx2 wEx) })] := by
      simp [WiringHarness.calculate_branch_wire_lengths, cbwlGo, hEx100]
    rw [hm, wEx_total]
    rfl

lemma cbwlGo_again_fst (br : List (String × HarnessBranch))
    (nd : List (String × Node)) :
    ∀ ws : List (String × Wire),
      (cbwlGo br nd ((cbwlGo br nd ws).2)).1 = (cbwlGo br nd ws).1
  | [] => rfl
  | (wid, w) :: rest => by
      simp [cbwlGo, cbwlGo_again_fst br nd rest, wireTotal_setCache]

lemma cbwlGo_again_snd (br : List (String × HarnessBranch))
    (nd : List (String × Node)) :
    ∀ ws : List (String × Wire),
      (cbwlGo br nd ((cbwlGo br nd ws).2)).2 = (cbwlGo br nd ws).2
  | [] => rfl
  | (wid, w) :: rest => by
      simp [cbwlGo, cbwlGo_again_snd br nd rest, wireTotal_setCache]

/-- C6: running `calculate_branch_wire_lengths` a second time on the updated
harness returns the same mapping and the same harness — the computation is
deterministic and the cache is overwritten, not accumulated. -/
theorem C6_idempotent (h : WiringHarness) :
    (h.calculate_branch_wire_lengths.2).calculate_branch_wire_lengths.1
      = h.calculate_branch_wire_lengths.1 ∧
    (h.calculate_branch_wire_lengths.2).calculate_branch_wire_lengths.2
      = h.calculate_branch_wire_lengths.2 := by
  constructor
  · exact cbwlGo_again_fst h.branches h.nodes h.wires
  · show ({ h with wires :=
        (cbwlGo h.branches h.nodes ((cbwlGo h.branches h.nodes h.wires).2)).2 }
          : WiringHarness)
      = { h with wires := (cbwlGo h.branches h.nodes h.wires).2 }
    exact congrArg (fun l => { h with wires := l })
      (cbwlGo_again_snd h.branches h.nodes h.wires)

lemma foldl_append_map {α β : Type} (f : α → β) :
    ∀ (l : List α) (acc : List β),
      l.foldl (fun a x => a ++ [f x]) acc = acc ++ l.map f
  | [], acc => by simp
  | x :: l, acc => by
      simp [foldl_append_map f l (acc ++ [f x])]

/-- C8: for a connector id present in the harness, the pinout report has
exactly one record per pin, in pin-insertion order, built by `pinRecord`
(fields pin_number, gender, seal, wire_id, wire_type, wire_color,
connected_to); a pin with no connected wire gets "N/A" placeholders rather
than being omitted, and zero pins give an empty report. -/
theorem C8_pinout (h : WiringHarness) (cid : String) (c : Connector)
    (hc : h.connectors.lookup cid = some c) :
    h.generate_pinout_report cid
      = c.pins.map (fun pp => pinRecord h cid pp.1 pp.2) ∧
    (∀ pp ∈ c.pins,
      (∀ wid, pp.2.wire_id = some wid → wid = "" ∨ h.wires.lookup wid = none) →
      pinRecord h cid pp.1 pp.2
        = { pin_number := pp.1, gender := pp.2.gender.value,
            «seal» := pp.2.seal.value, wire_id := pp.2.wire_id,
            wire_type := "N/A", wire_color := "N/A", connected_to := "N/A" }) ∧
    (c.pins = [] → h.generate_pinout_report cid = []) := by
  have hrep : h.generate_pinout_report cid
      = c.pins.map (fun pp => pinRecord h cid pp.1 pp.2) := by
    simp only [WiringHarness.generate_pinout_report, hc]
    rw [foldl_append_map]
    simp
  refine ⟨hrep, ?_, ?_⟩
  · intro pp _hmem hw
    have hcw : (if truthyStr pp.2.wire_id then
          match pp.2.wire_id with
          | some wid => h.wires.lookup wid
          | none => none
        else none) = (none : Option Wire) := by
      cases hx : pp.2.wire_id with
      | none => simp [truthyStr]
      | some wid =>
          rcases hw wid hx with hempty | hnone
          · subst hempty
            simp [truthyStr]
          · by_cases hwid : wid = ""
            · simp [truthyStr, hwid]
            · simp [truthyStr, hwid, hnone]
    simp only [pinRecord, hcw]
  · intro hpins
    rw [hrep, hpins]
    rfl

/-- Pin with no connected wire, used as a concrete instance. -/
def pinW : Pin :=
  { number := "1", gender := Gender.MALE, «seal» := SealType.UNSEALED,
    wire_id := none }

/-- Connector with one unconnected pin, used as a concrete instance. -/
def cEx : Connector :=
  { id := "c1", name := "C1", type := ConnectorType.DTM,
    gender := Gender.MALE, «seal» := SealType.UNSEALED, part_number := none,
    pins := [("1", pinW)], position := (0, 0) }

/-- Harness holding the one-pin connector. -/
def hPW : WiringHarness :=
  { name := "H2", part_number := "PN2", connectors := [("c1", cEx)],
    wires := [], branches := [], protections := [], nodes := [],
    fasteners := [], fastener_types := [] }

/-- C8 witness: the unconnected pin is reported with "N/A" placeholders. -/
theorem C8_witness :
    hPW.connectors.lookup "c1" = some cEx ∧
    hPW.generate_pinout_report "c1"
      = [{ pin_number := "1", gender := "Male", «seal» := "Unsealed",
           wire_id := none, wire_type := "N/A", wire_color := "N/A",
           connected_to := "N/A" }] := by
  have hc : hPW.connectors.lookup "c1" = some cEx := rfl
  refine ⟨hc, ?_⟩
  have h := C8_pinout hPW "c1" cEx hc
  have hpin := h.2.1 ("1", pinW) (by simp [cEx])
    (fun wid hw => by simp [pinW] at hw)
  calc hPW.generate_pinout_report "c1"
      = cEx.pins.map (fun pp => pinRecord hPW "c1" pp.1 pp.2) := h.1
    _ = [pinRecord hPW "c1" "1" pinW] := rfl
    _ = [{ pin_number := "1", gender := "Male", «seal» := "Unsealed",
           wire_id := none, wire_type := "N/A", wire_color := "N/A",
           connected_to := "N/A" }] := by
        exact congrArg (fun x => [x]) hpin

/-- C9: a connector id absent from the harness's connector mapping yields an
empty pinout report rather than an error. -/
theorem C9_pinout_unknown (h : WiringHarness) (cid : String)
    (hc : h.connectors.lookup cid = none) :
    h.generate_pinout_report cid = [] := by
  simp only [WiringHarness.generate_pinout_report, hc]

/-- C9 witness: an unknown connector id on a concrete harness. -/
theorem C9_witness :
    hPW.connectors.lookup "zz" = none ∧ hPW.generate_pinout_report "zz" = [] :=
  ⟨rfl, C9_pinout_unknown hPW "zz" rfl⟩

/-- Total number of location strings across all fastener-BOM entries. -/
def locCount (bom : List (String × FastenerBomEntry)) : ℕ :=
  (bom.map (fun e => e.2.locations.length)).sum

/-- Total quantity across all fastener-BOM entries. -/
def qtySum (bom : List (String × FastenerBomEntry)) : Int :=
  (bom.map (fun e => e.2.quantity)).sum

lemma lookup_updateAt {α : Type} (k : String) (g : α → α) :
    ∀ m : List (String × α), (updateAt m k g).lookup k = (m.lookup k).map g
  | [] => rfl
  | (k', v) :: rest => by
      by_cases hk : k' = k
      · subst hk
        simp [updateAt, List.lookup]
      · have h1 : (k' == k) = false := beq_eq_false_iff_ne.mpr hk
        have h2 : (k == k') = false := beq_eq_false_iff_ne.mpr (Ne.symm hk)
        simp [updateAt, List.lookup, h1, h2, lookup_updateAt k g rest]

lemma lookup_append_of_none {α : Type} (k : String) :
    ∀ (m l : List (String × α)), m.lookup k = none → (m ++ l).lookup k = l.lookup k
  | [], l, _ => by simp
  | (k', v) :: rest, l, h => by
      cases hk : (k == k') with
      | true => simp [List.lookup, hk] at h
      | false =>
          simp only [List.lookup, hk] at h
          simp only [List.cons_append, List.lookup, hk]
          exact lookup_append_of_none k rest l h

lemma locCount_append (m l : List (String × FastenerBomEntry)) :
    locCount (m ++ l) = locCount m + locCount l := by
  simp [locCount]

lemma qtySum_append (m l : List (String × FastenerBomEntry)) :
    qtySum (m ++ l) = qtySum m + qtySum l := by
  simp [qtySum]

lemma locCount_updateAt (k : String) (g : FastenerBomEntry → FastenerBomEntry) :
    ∀ (m : List (String × FastenerBomEntry)) (e : FastenerBomEntry),
      m.lookup k = some e →
      locCount (updateAt m k g) + e.locations.length
        = locCount m + (g e).locations.length
  | [], e, h => by simp [List.lookup] at h
  | (k', v) :: rest, e, h => by
      by_cases hk : k' = k
      · subst hk
        have he : v = e := by simpa [List.lookup] using h
        subst he
        simp [updateAt, locCount]
        omega
      · have h1 : (k' == k) = false := beq_eq_false_iff_ne.mpr hk
        have h2 : (k == k') = false := beq_eq_false_iff_ne.mpr (Ne.symm hk)
        have h' : rest.lookup k = some e := by simpa [List.lookup, h2] using h
        have ih := locCount_updateAt k g rest e h'
        simp only [updateAt, h1, Bool.false_eq_true, if_false, locCount,
          List.map_cons, List.sum_cons] at ih ⊢
        omega

lemma qtySum_updateAt (k : String) (g : FastenerBomEntry → FastenerBomEntry) :
    ∀ (m : List (String × FastenerBomEntry)) (e : FastenerBomEntry),
      m.lookup k = some e →
      qtySum (updateAt m k g) + e.quantity = qtySum m + (g e).quantity
  | [], e, h => by simp [List.lookup] at h
  | (k', v) :: rest, e, h => by
      by_cases hk : k' = k
      · subst hk
        have he : v = e := by simpa [List.lookup] using h
        subst he
        simp [updateAt, qtySum]
        omega
      · have h1 : (k' == k) = false := beq_eq_false_iff_ne.mpr hk
        have h2 : (k == k') = false := beq_eq_false_iff_ne.mpr (Ne.symm hk)
        have h' : rest.lookup k = some e := by simpa [List.lookup, h2] using h
        have ih := qtySum_updateAt k g rest e h'
        simp only [updateAt, h1, Bool.false_eq_true, if_false, qtySum,
          List.map_cons, List.sum_cons] at ih ⊢
        omega

lemma fbomUpd_quantity (f : Fastener) (e : FastenerBomEntry) :
    (fbomUpd f e).quantity = e.quantity + f.quantity := by
  unfold fbomUpd
  by_cases h1 : truthyStr f.branch_id
  · simp [h1]
  · by_cases h2 : truthyStr f.node_id <;> simp [h1, h2]

lemma fbomUpd_locations (f : Fastener) (e : FastenerBomEntry) :
    (fbomUpd f e).locations
      = e.locations
        ++ (if truthyStr f.branch_id then ["Branch " ++ f.branch_id.getD ""]
            else if truthyStr f.node_id then ["Node " ++ f.node_id.getD ""]
            else []) := by
  unfold fbomUpd
  by_cases h1 : truthyStr f.branch_id
  · simp [h1]
  · by_cases h2 : truthyStr f.node_id <;> simp [h1, h2]

/-- C10 (amended): each fastener step adds its quantity to its keyed entry
and contributes at most one location string — exactly one when branch_id or
node_id is a non-empty string ("Branch {id}" taking precedence), none
otherwise — and never fails. An empty-string attachment behaves as absent
because the source tests Python truthiness, not presence. -/
theorem C10_fastener_amended (bom : List (String × FastenerBomEntry))
    (f : Fastener) :
    (locCount (fbomStep bom f)
      = locCount bom
        + (if truthyStr f.branch_id || truthyStr f.node_id then 1 else 0)) ∧
    (qtySum (fbomStep bom f) = qtySum bom + f.quantity) ∧
    (∀ e, (fbomStep bom f).lookup (fkey f) = some e →
      e.quantity
          = ((bom.lookup (fkey f)).getD (freshEntry f)).quantity + f.quantity ∧
      e.locations
          = ((bom.lookup (fkey f)).getD (freshEntry f)).locations
            ++ (if truthyStr f.branch_id then ["Branch " ++ f.branch_id.getD ""]
                else if truthyStr f.node_id then ["Node " ++ f.node_id.getD ""]
                else [])) := by
  have hlen : ∀ e : FastenerBomEntry,
      (fbomUpd f e).locations.length
        = e.locations.length
          + (if truthyStr f.branch_id || truthyStr f.node_id then 1 else 0) := by
    intro e
    rw [fbomUpd_locations]
    by_cases h1 : truthyStr f.branch_id
    · simp [h1]
    · by_cases h2 : truthyStr f.node_id <;> simp [h1, h2]
  cases hx : bom.lookup (fkey f) with
  | some e0 =>
      have hstep : fbomStep bom f = updateAt bom (fkey f) (fbomUpd f) := by
        simp [fbomStep, hx]
      refine ⟨?_, ?_, ?_⟩
      · have h1 := locCount_updateAt (fkey f) (fbomUpd f) bom e0 hx
        rw [hlen e0] at h1
        rw [hstep]
        omega
      · have h1 := qtySum_updateAt (fkey f) (fbomUpd f) bom e0 hx
        rw [fbomUpd_quantity] at h1
        rw [hstep]
        omega
      · intro e he
        rw [hstep, lookup_updateAt, hx] at he
        have hee : fbomUpd f e0 = e := by simpa using he
        subst hee
        exact ⟨by simp [fbomUpd_quantity], by simp [fbomUpd_locations]⟩
  | none =>
      have hlook1 : ((bom ++ [(fkey f, freshEntry f)]).lookup (fkey f))
          = some (freshEntry f) := by
        rw [lookup_append_of_none (fkey f) bom _ hx]
        simp [List.lookup]
      have hstep : fbomStep bom f
          = updateAt (bom ++ [(fkey f, freshEntry f)]) (fkey f) (fbomUpd f) := by
        simp [fbomStep, hx]
      have hlc1 : locCount (bom ++ [(fkey f, freshEntry f)]) = locCount bom := by
        simp [locCount_append, locCount, freshEntry]
      have hqs1 : qtySum (bom ++ [(fkey f, freshEntry f)]) = qtySum bom := by
        simp [qtySum_append, qtySum, freshEntry]
      refine ⟨?_, ?_, ?_⟩
      · have h1 := locCount_updateAt (fkey f) (fbomUpd f) _ _ hlook1
        rw [hlen (freshEntry f), hlc1] at h1
        rw [hstep]
        have hfl : (freshEntry f).locations.length = 0 := rfl
        omega
      · have h1 := qtySum_updateAt (fkey f) (fbomUpd f) _ _ hlook1
        rw [fbomUpd_quantity, hqs1] at h1
        rw [hstep]
        have hfq : (freshEntry f).quantity = 0 := rfl
        omega
      · intro e he
        rw [hstep, lookup_updateAt, hlook1] at he
        have hee : fbomUpd f (freshEntry f) = e := by simpa using he
        subst hee
        exact ⟨by simp [fbomUpd_quantity], by simp [fbomUpd_locations]⟩

/-- FastenerType fixture. -/
def ftEx : FastenerType :=
  { id := "ft1", name := "Clip", description := none,
    category := FastenerCategory.CLIP, material := FastenerMaterial.NYLON,
    default_size := none }

/-- Fastener with both attachments set to non-empty ids: branch precedence. -/
def fBW : Fastener :=
  { id := "f2", harness_id := "h0", type := ftEx, part_number := "P",
    quantity := 2, position := (0, 0), orientation := 0, size := none,
    torque_nm := none, notes := none, branch_id := some "b1",
    distance_from_start_mm := none, node_id := some "n1" }

/-- C10 witness: with branch_id "b1" and node_id "n1" both set, the single
appended location is "Branch b1" and the quantity accumulates. -/
theorem C10_witness :
    ∃ e, (fbomStep [] fBW).lookup (fkey fBW) = some e ∧
      e.quantity = 2 ∧ e.locations = ["Branch b1"] := by
  have hl : (fbomStep [] fBW).lookup (fkey fBW)
      = some (fbomUpd fBW (freshEntry fBW)) := rfl
  have h3 := (C10_fastener_amended [] fBW).2.2 (fbomUpd fBW (freshEntry fBW)) hl
  refine ⟨fbomUpd fBW (freshEntry fBW), hl, ?_, ?_⟩
  · rw [h3.1]
    rfl
  · rw [h3.2]
    rfl

/-- Fastener whose branch_id is the empty string and whose node_id is set. -/
def fCX : Fastener :=
  { id := "f1", harness_id := "h0", type := ftEx, part_number := "P",
    quantity := 1, position := (0, 0), orientation := 0, size := none,
    torque_nm := none, notes := none, branch_id := some "",
    distance_from_start_mm := none, node_id := some "n1" }

/-- Harness holding only the empty-branch-id fastener. -/
def hCX : WiringHarness :=
  { name := "H3", part_number := "PN3", connectors := [], wires := [],
    branches := [], protections := [], nodes := [],
    fasteners := [("f1", fCX)], fastener_types := [] }

/-- C10 counterexample: fCX's branch_id is set (to ""), yet the location
recorded by `generate_fastener_bom` is "Node n1", not a "Branch ..." string,
because the source tests truthiness and an empty string is falsy. -/
theorem C10_counterexample :
    fCX.branch_id = some "" ∧
    ((hCX.generate_fastener_bom).lookup "P_").map FastenerBomEntry.locations
      = some ["Node n1"] :=
  ⟨rfl, rfl⟩

/-- Protection with both optional fields absent. -/
def pEx : BranchProtection :=
  { id := "p1", type := ProtectionType.TAPE, part_number := none,
    diameter := none }

/-- Structurally valid harness containing one protection and nothing else. -/
def hPX : WiringHarness :=
  { name := "H4", part_number := "PN4", connectors := [], wires := [],
    branches := [], protections := [("p1", pEx)], nodes := [],
    fasteners := [], fastener_types := [] }

/-- C2: on a structurally valid harness holding one BranchProtection,
`generate_bom` raises (AttributeError from reading the non-existent
`diameter_mm` attribute) instead of returning a result. -/
theorem C2_generate_bom_raises :
    hPX.generate_bom = Except.error PyError.attributeError := rfl

/-- C3: adding a wire with a fresh id whose `from_node_id` does not resolve
fails with DanglingReferenceError, and the harness aggregate is left exactly
as it was. Modelled from the spec, as `add_wire` is absent from the source. -/
theorem C3_add_wire_dangling (h : WiringHarness) (w : Wire)
    (hid : h.wires.lookup w.id = none)
    (hfrom : h.nodes.lookup w.from_node_id = none) :
    h.add_wire w = Except.error HarnessError.danglingReference ∧
    h.add_wire_result w = h := by
  have hA : h.add_wire w = Except.error HarnessError.danglingReference := by
    unfold WiringHarness.add_wire
    simp [hid, hfrom]
  refine ⟨hA, ?_⟩
  unfold WiringHarness.add_wire_result
  rw [hA]

/-- Harness with no entities at all. -/
def hEmptyH : WiringHarness :=
  { name := "H0", part_number := "PN0", connectors := [], wires := [],
    branches := [], protections := [], nodes := [], fasteners := [],
    fastener_types := [] }

/-- Wire whose endpoints resolve to no node of the empty harness. -/
def wDang : Wire :=
  { id := "w9", harness_id := "h0", type := WireType.FLRY_B_1_0, color := "BK",
    from_node_id := "nx", to_node_id := "ny", from_pin := none, to_pin := none,
    calculated_length_mm := none }

/-- C3 witness: the dangling wire on the empty harness. -/
theorem C3_witness :
    hEmptyH.add_wire wDang = Except.error HarnessError.danglingReference ∧
    hEmptyH.add_wire_result wDang = hEmptyH :=
  C3_add_wire_dangling hEmptyH wDang rfl rfl

end HarnessEd
